import Mathlib

/-
Verification of the RAG-Chatbot pipeline.

Python strings are modelled as Lean `String` (ASCII fragment: the regex
classes `\s` and `\w` are modelled by explicit ASCII predicates), Python
dicts keyed by strings as association lists, Python exceptions as
`Except String`, and the wall clock / vector backend / chat backend as
explicit parameters.
-/

namespace RAGChatbot

/-! ## Text cleaning (src/preprocess.py, TextPreprocessor.clean_text) -/

/-- The regex class `\s` (ASCII fragment): space, tab, newline, carriage
return, vertical tab, form feed. -/
def pyIsSpace (c : Char) : Bool :=
  c == ' ' || c == '\t' || c == '\n' || c == '\r' || c == '\x0b' || c == '\x0c'

/-- The regex class `\w` (ASCII fragment): letters, digits, underscore. -/
def isWordChar (c : Char) : Bool :=
  c.isAlphanum || c == '_'

/-- The punctuation kept by `clean_text`'s second regex:
`[^\w\s\.,!?;:\-\'"()]` removes everything outside this allow-list. -/
def allowedPunct : List Char :=
  ['.', ',', '!', '?', ';', ':', '-', '\'', '"', '(', ')']

/-- A character survives `re.sub(r'[^\w\s\.,!?;:\-\'"()]', '', text)`. -/
def keepChar (c : Char) : Bool :=
  isWordChar c || pyIsSpace c || allowedPunct.contains c

/-- Worker for `re.sub(r'\s+', ' ', text)`: the flag records whether the
previous character was whitespace, so a maximal whitespace run emits one
space at its first character and nothing afterwards. -/
def collapseWsAux : Bool → List Char → List Char
  | _, [] => []
  | prevWs, c :: rest =>
    if pyIsSpace c then
      (if prevWs then [] else [' ']) ++ collapseWsAux true rest
    else c :: collapseWsAux false rest

/-- `re.sub(r'\s+', ' ', text)`: collapse every maximal run of whitespace
to a single space. -/
def collapseWs (l : List Char) : List Char :=
  collapseWsAux false l

/-- Python `str.strip()` on the ASCII fragment: drop leading and trailing
whitespace. -/
def stripChars (l : List Char) : List Char :=
  ((l.dropWhile pyIsSpace).reverse.dropWhile pyIsSpace).reverse

/-- `TextPreprocessor.clean_text`: collapse whitespace runs, drop
characters outside the allow-list, then strip. -/
def cleanText (s : String) : String :=
  ⟨stripChars ((collapseWs s.data).filter keepChar)⟩

/-- Python `str.strip()` on a Lean `String`. -/
def pyStrip (s : String) : String :=
  ⟨stripChars s.data⟩

/-! ## Text splitting

Modelled from the spec: the repository delegates splitting to the
third-party `langchain_text_splitters.RecursiveCharacterTextSplitter`,
whose code is not part of this repository's sources.  Section 4.1 of the
spec describes the splitter consumed here: split down to character
granularity where needed, "pack adjacent pieces greedily up to
`chunk_size` characters, carrying an overlap of `chunk_overlap`
characters from the end of the previous chunk into the start of the
next"; "empty document → empty chunk sequence (not an error); document
shorter than `chunk_size` → single chunk with zero overlap".  The model
below packs at character granularity: each emitted chunk takes at most
`chunkSize` characters and the next chunk starts `chunkSize -
chunkOverlap` characters later (the `max 1` guard only matters for the
degenerate configuration `chunkOverlap ≥ chunkSize`, which the spec
excludes; it keeps the recursion productive). -/
def packChunksAux (chunkSize step : Nat) : Nat → List Char → List (List Char)
  | _, [] => []
  | 0, _ :: _ => []
  | fuel + 1, cs =>
    if cs.length ≤ chunkSize then [cs]
    else cs.take chunkSize :: packChunksAux chunkSize step fuel (cs.drop step)

/-- The character-level greedy packer (see the section comment above):
each chunk takes at most `chunkSize` characters and the next chunk
starts `chunkSize - chunkOverlap` characters later.  The fuel argument
of the worker, at least the text length here, only drives the structural
recursion. -/
def packChunks (chunkSize chunkOverlap : Nat) (cs : List Char) : List (List Char) :=
  packChunksAux chunkSize (max 1 (chunkSize - chunkOverlap)) cs.length cs

/-- Modelled from the spec: `split_text` of the third-party splitter, on
already-cleaned text (see `packChunks`). -/
def splitText (chunkSize chunkOverlap : Nat) (s : String) : List String :=
  (packChunks chunkSize chunkOverlap s.data).map fun l => ⟨l⟩

/-! ## Documents and chunks (src/ingest.py, src/preprocess.py) -/

/-- The document dictionary produced by `DocumentIngester.ingest_document`
(the fields the rest of the pipeline reads). -/
structure Document where
  file_path : String
  file_name : String
  content : String
deriving DecidableEq

/-- The chunk dictionary produced by `TextPreprocessor.chunk_document`. -/
structure Chunk where
  chunk_id : String
  source_document : String
  source_path : String
  chunk_index : Nat
  content : String
  chunk_size : Nat
deriving DecidableEq

/-- `TextPreprocessor.chunk_document`: clean, split, and wrap each piece
with its deterministic id `"{file_name}_chunk_{i}"`.  The splitter is
configured from settings with `chunk_size = chunkSize` and
`chunk_overlap = chunkOverlap`. -/
def chunkDocument (chunkSize chunkOverlap : Nat) (doc : Document) : List Chunk :=
  let cleaned := cleanText doc.content
  (splitText chunkSize chunkOverlap cleaned).enum.map fun p =>
    { chunk_id := doc.file_name ++ "_chunk_" ++ toString p.1
      source_document := doc.file_name
      source_path := doc.file_path
      chunk_index := p.1
      content := p.2
      chunk_size := p.2.length }

/-- `TextPreprocessor.process_documents`: chunk every document and
concatenate. -/
def processDocuments (chunkSize chunkOverlap : Nat) (docs : List Document) : List Chunk :=
  docs.flatMap (chunkDocument chunkSize chunkOverlap)

/-! ## Conversation memory (src/memory.py, ConversationMemory) -/

/-- One conversation turn, as stored by `add_conversation_turn`. -/
structure Turn where
  timestamp : String
  user : String
  assistant : String
deriving DecidableEq

/-- The `self.conversations` dict, as an association list keyed by
conversation id. -/
def Conversations : Type := List (String × List Turn)

instance : DecidableEq Conversations :=
  inferInstanceAs (DecidableEq (List (String × List Turn)))

/-- Dict membership / lookup on the conversations store. -/
def lookupConv : Conversations → String → Option (List Turn)
  | [], _ => none
  | (k, v) :: rest, cid => if k = cid then some v else lookupConv rest cid

/-- Dict assignment on the conversations store (insert or overwrite). -/
def setConv : Conversations → String → List Turn → Conversations
  | [], cid, log => [(cid, log)]
  | (k, v) :: rest, cid, log =>
    if k = cid then (k, log) :: rest else (k, v) :: setConv rest cid log

/-- `ConversationMemory.add_conversation_turn`: create the log lazily if
the id is unknown, then append one turn.  The wall-clock timestamp is an
explicit parameter. -/
def addConversationTurn (m : Conversations) (cid userMessage assistantMessage ts : String) :
    Conversations :=
  let log := (lookupConv m cid).getD []
  setConv m cid (log ++ [{ timestamp := ts, user := userMessage, assistant := assistantMessage }])

/-- `ConversationMemory.get_conversation_history`: empty list for an
unknown id; otherwise the log, restricted to its last `max_turns`
elements only when `max_turns` is Python-truthy (`None` and `0` are
falsy, so both return the full log). -/
def getConversationHistory (m : Conversations) (cid : String) (maxTurns : Option Nat) :
    List Turn :=
  match lookupConv m cid with
  | none => []
  | some history =>
    match maxTurns with
    | none => history
    | some 0 => history
    | some (n + 1) => history.drop (history.length - (n + 1))

/-! ## LLM wrapper (src/llm.py, LLMWrapper) -/

/-- One chat message sent to the completion API. -/
structure Message where
  role : String
  content : String
deriving DecidableEq

/-- Metadata attached to a retrieved chunk (a dict read with `.get`, so
every field may be absent). -/
structure DocMetadata where
  source_document : Option String
  source_path : Option String
  chunk_index : Option Nat
  chunk_size : Option Nat
deriving DecidableEq

/-- A result of `EmbeddingManager.search_similar` (the similarity
distance is a float; its value is never consumed by the claims, so it is
modelled as a rational). -/
structure RetrievedDoc where
  id : String
  content : String
  metadata : DocMetadata
  distance : Option Rat
deriving DecidableEq

/-- The RAG-mode system prompt literal of `LLMWrapper._build_messages`
(a Python triple-quoted string: the line break after the first sentence
is preceded by a trailing space and the continuation lines carry the
source file's eight-space indentation). -/
def systemPromptRag : String :=
  "You are a helpful AI assistant that answers questions based on the provided context. \n        Follow these guidelines:\n        1. Answer questions based primarily on the provided context\n        2. If the context doesn't contain enough information, say so clearly\n        3. Be concise but informative\n        4. Cite sources when possible\n        5. If asked about something not in the context, politely explain the limitation"

/-- `LLMWrapper._build_context`: `"No relevant context found."` for an
empty list, else the passages rendered with a 1-based index and joined
with blank lines. -/
def buildContext (contextDocuments : List RetrievedDoc) : String :=
  if contextDocuments.isEmpty then "No relevant context found."
  else
    String.intercalate "\n\n"
      ((List.enumFrom 1 contextDocuments).map fun p =>
        "Source " ++ toString p.1 ++ " (" ++ p.2.metadata.source_document.getD "Unknown"
          ++ "):\n" ++ p.2.content)

/-- `LLMWrapper._build_messages`: system prompt, then user/assistant
pairs for the last five history turns (skipped when the history argument
is `None` or the empty, Python-falsy, list), then the context-plus-
question user message. -/
def buildMessages (query : String) (context : String)
    (conversationHistory : Option (List Turn)) : List Message :=
  let messages := [{ role := "system", content := systemPromptRag : Message }]
  let messages :=
    match conversationHistory with
    | none => messages
    | some h =>
      if h.isEmpty then messages
      else
        messages ++ (h.drop (h.length - 5)).flatMap fun t =>
          [{ role := "user", content := t.user }, { role := "assistant", content := t.assistant }]
  messages ++ [{ role := "user", content := "Context:\n" ++ context ++ "\n\nQuestion: " ++ query }]

/-- The chat-completion backend consumed by `LLMWrapper`
(`client.chat.completions.create`, abstracted over model name and
message list; temperature, token limits and the reasoning extension do
not influence the control flow modelled here). -/
structure ChatBackend where
  complete : String → List Message → Except String String

/-- The model configuration read from settings. -/
structure LLMConfig where
  model : String
  fallback_model : String

/-- The attempt chain of `LLMWrapper.generate_response` on its
`use_fallback` flag: the selected model is the fallback model exactly
when the flag is set, a failed primary call recurses once with the flag
set, and a failed fallback call raises `LLMError`.  The single
flag-guarded recursive call of the source is unrolled here (the flag
bounds the recursion at two attempts). -/
def generateResponseGo (be : ChatBackend) (cfg : LLMConfig) (messages : List Message)
    (useFallback : Bool) : Except String String :=
  match be.complete (if useFallback then cfg.fallback_model else cfg.model) messages with
  | .ok answer => .ok (pyStrip answer)
  | .error e =>
    if useFallback then .error ("Failed to generate response: " ++ e)
    else
      match be.complete cfg.fallback_model messages with
      | .ok answer => .ok (pyStrip answer)
      | .error e2 => .error ("Failed to generate response: " ++ e2)

/-- `LLMWrapper.generate_response`: build context and messages, then run
the primary/fallback attempt chain. -/
def generateResponse (be : ChatBackend) (cfg : LLMConfig) (query : String)
    (contextDocuments : List RetrievedDoc) (conversationHistory : Option (List Turn))
    (useFallback : Bool) : Except String String :=
  generateResponseGo be cfg (buildMessages query (buildContext contextDocuments) conversationHistory)
    useFallback

/-- The general-chat system prompt literal of
`LLMWrapper.generate_general_response`. -/
def generalSystemPrompt : String :=
  "You are a helpful, friendly AI assistant. Answer questions clearly and concisely."

/-- The message list built inside `LLMWrapper.generate_general_response`:
plain system prompt, last five history turns, then the bare query. -/
def buildGeneralMessages (query : String) (conversationHistory : Option (List Turn)) :
    List Message :=
  let messages := [{ role := "system", content := generalSystemPrompt : Message }]
  let messages :=
    match conversationHistory with
    | none => messages
    | some h =>
      if h.isEmpty then messages
      else
        messages ++ (h.drop (h.length - 5)).flatMap fun t =>
          [{ role := "user", content := t.user }, { role := "assistant", content := t.assistant }]
  messages ++ [{ role := "user", content := query }]

/-- `LLMWrapper.generate_general_response`: try the primary model; on
failure retry once with the fallback model when `self.fallback_model` is
Python-truthy (a non-empty string), else re-raise; a fallback failure is
wrapped into `LLMError` by the outer handler. -/
def generateGeneralResponse (be : ChatBackend) (cfg : LLMConfig) (query : String)
    (conversationHistory : Option (List Turn)) : Except String String :=
  let messages := buildGeneralMessages query conversationHistory
  match be.complete cfg.model messages with
  | .ok answer => .ok (pyStrip answer)
  | .error e =>
    if cfg.fallback_model ≠ "" then
      match be.complete cfg.fallback_model messages with
      | .ok answer => .ok (pyStrip answer)
      | .error e2 => .error ("Failed to generate response: " ++ e2)
    else .error ("Failed to generate response: " ++ e)

/-! ## Embedding index (src/embeddings.py, EmbeddingManager)

The vector store behind `EmbeddingManager` is the third-party chroma
collection, whose code is not part of this repository's sources; it is
modelled from the spec, section 4.2: the store maps each `chunk_id` to
one entry and an upsert "replaces any existing entry sharing the same
`chunk_id` (idempotent re-ingestion)".  The embedding vector attached to
an entry is, per the same contract, a deterministic function of the
entry's content, so it is determined by the fields kept here and is not
modelled separately. -/

/-- What `EmbeddingManager.add_documents` stores per chunk id: the chunk
content plus the metadata dict it builds. -/
structure IndexEntry where
  content : String
  source_document : String
  source_path : String
  chunk_index : Nat
  chunk_size : Nat
deriving DecidableEq

/-- Modelled from the spec: the chroma collection state, as the map from
chunk ids to stored entries (section 4.2). -/
def IndexState : Type := String → Option IndexEntry

/-- The index holding no documents. -/
def emptyIndex : IndexState := fun _ => none

/-- The entry `add_documents` builds from a chunk. -/
def entryOf (c : Chunk) : IndexEntry :=
  { content := c.content
    source_document := c.source_document
    source_path := c.source_path
    chunk_index := c.chunk_index
    chunk_size := c.chunk_size }

/-- Modelled from the spec: upsert of one entry, replacing any existing
entry with the same chunk id (section 4.2). -/
def upsertEntry (m : IndexState) (id : String) (e : IndexEntry) : IndexState :=
  fun k => if k = id then some e else m k

/-- `EmbeddingManager.add_documents`: store every chunk under its
`chunk_id`. -/
def addDocuments (m : IndexState) (chunks : List Chunk) : IndexState :=
  chunks.foldl (fun acc c => upsertEntry acc c.chunk_id (entryOf c)) m

/-! ## Document ingestion (src/ingest.py, DocumentIngester) -/

/-- The file system visible to the ingester: a map from paths to the
extracted raw text of the file (text extraction from PDF or TXT bytes is
collaborator work outside the control flow modelled here). -/
def FileSystem : Type := List (String × String)

/-- Path existence / content lookup. -/
def fsLookup : FileSystem → String → Option String
  | [], _ => none
  | (p, c) :: rest, q => if p = q then some c else fsLookup rest q

/-- `pathlib.Path(file_path).name`: the final path component. -/
def fileNameOf (p : String) : String :=
  ((p.splitOn "/").getLast?).getD ""

/-- `pathlib.Path(file_path).suffix`: the extension of the final
component, such as `".txt"`; empty when the name has no dot, starts with
its only dot, or ends with its last dot. -/
def pathSuffix (p : String) : String :=
  let name := (fileNameOf p).data
  match name.reverse.indexOf? '.' with
  | none => ""
  | some revIdx =>
    let i := name.length - 1 - revIdx
    if 0 < i ∧ i < name.length - 1 then ⟨name.drop i⟩ else ""

/-- Python `str.lower()` (ASCII fragment). -/
def pyLower (s : String) : String :=
  s.map Char.toLower

/-- `DocumentIngester.supported_extensions`. -/
def supportedExtensions : List String := [".pdf", ".txt"]

/-- `DocumentIngester.ingest_document`: error on a missing path, error
on an unsupported extension, otherwise the document dictionary with the
stripped extracted text.  `DocumentIngestionError`s raised inside the
body are re-wrapped by the method's own handler, hence the doubled
message prefix. -/
def ingestDocument (fs : FileSystem) (filePath : String) : Except String Document :=
  match fsLookup fs filePath with
  | none => .error ("Failed to ingest document: File not found: " ++ filePath)
  | some raw =>
    if supportedExtensions.contains (pyLower (pathSuffix filePath)) then
      .ok { file_path := filePath, file_name := fileNameOf filePath, content := pyStrip raw }
    else
      .error ("Failed to ingest document: Unsupported file type: " ++ pathSuffix filePath)

/-! ## Pipeline orchestrator (src/rag_pipeline.py, RAGPipeline) -/

/-- The read loop of `RAGPipeline.ingest_documents` step 1: ingest each
file in order; the first failure aborts the whole call. -/
def readDocuments (fs : FileSystem) : List String → Except String (List Document)
  | [] => .ok []
  | p :: ps =>
    match ingestDocument fs p with
    | .error e => .error e
    | .ok d =>
      match readDocuments fs ps with
      | .error e => .error e
      | .ok ds => .ok (d :: ds)

/-- `RAGPipeline.ingest_documents`: read every file, chunk every
document, then write all chunks to the index in one `add_documents`
call.  The pair returned is the post-call index state together with the
call's outcome (a raised `ChatbotError` leaves the index as it was,
because the single index write is the last step). -/
def ingestDocuments (fs : FileSystem) (chunkSize chunkOverlap : Nat) (idx : IndexState)
    (filePaths : List String) : IndexState × Except String Unit :=
  match readDocuments fs filePaths with
  | .error e => (idx, .error ("Document ingestion failed: " ++ e))
  | .ok docs => (addDocuments idx (processDocuments chunkSize chunkOverlap docs), .ok ())

/-- One element of the `sources` list returned by
`RAGPipeline.ask_question`. -/
structure SourceInfo where
  source : String
  content_preview : String
deriving DecidableEq

/-- The response dictionary of `RAGPipeline.ask_question`. -/
structure AskResponse where
  answer : String
  sources : List SourceInfo
  conversation_id : Option String
deriving DecidableEq

/-- The preview built in `ask_question` step 5:
`doc['content'][:200] + "..." if len(doc['content']) > 200 else
doc['content']`. -/
def contentPreview (content : String) : String :=
  if 200 < content.length then ⟨content.data.take 200⟩ ++ "..." else content

/-- The environment a `RAGPipeline` instance closes over for `ask`:
the chat backend with its model configuration, and the embedding
manager's similarity search (question and `top_k` to either results or
a raised error). -/
structure PipelineEnv where
  be : ChatBackend
  cfg : LLMConfig
  search : String → Nat → Except String (List RetrievedDoc)

/-- `ask_question` step 1 with its try/except: a search failure is
logged and treated as zero retrieved documents. -/
def retrievedOrEmpty (env : PipelineEnv) (question : String) (topK : Nat) :
    List RetrievedDoc :=
  match env.search question topK with
  | .ok docs => docs
  | .error _ => []

/-- `ask_question` step 2: the history argument handed to the generator;
`None` unless `conversation_id` is Python-truthy (present and
non-empty). -/
def historyArg (mem : Conversations) (conversationId : Option String) :
    Option (List Turn) :=
  match conversationId with
  | none => none
  | some cid => if cid = "" then none else some (getConversationHistory mem cid none)

/-- `RAGPipeline.ask_question`: retrieve (failures downgraded to zero
passages), fetch history, generate in RAG mode when passages exist and
in general-chat mode otherwise, append the turn, and shape the response
dictionary.  Returns the response together with the post-call
conversation store; a generation failure surfaces as the wrapped
`ChatbotError`. -/
def askQuestion (env : PipelineEnv) (mem : Conversations) (question : String)
    (conversationId : Option String) (topK : Nat) (ts : String) :
    Except String (AskResponse × Conversations) :=
  let relevantDocs := retrievedOrEmpty env question topK
  let conversationHistory := historyArg mem conversationId
  let answerE :=
    if relevantDocs.isEmpty then
      generateGeneralResponse env.be env.cfg question conversationHistory
    else
      generateResponse env.be env.cfg question relevantDocs conversationHistory false
  match answerE with
  | .error e => .error ("Question answering failed: " ++ e)
  | .ok answer =>
    let mem2 :=
      match conversationId with
      | none => mem
      | some cid => if cid = "" then mem else addConversationTurn mem cid question answer ts
    .ok
      ({ answer := answer
         sources := relevantDocs.map fun d =>
           { source := d.metadata.source_document.getD "Unknown"
             content_preview := contentPreview d.content }
         conversation_id := conversationId },
       mem2)

/-! ## The prompt as the spec words it (section 4.4)

These definitions follow the spec's sentences, to be compared with the
source-derived `buildContext`/`buildMessages` above. -/

/-- The passages "each rendered as
`"Source {1-based index} ({source_document}):\n{content}"`", indexing
from `i`. -/
def specRenderFrom (i : Nat) : List RetrievedDoc → List String
  | [] => []
  | d :: ds =>
    ("Source " ++ toString i ++ " (" ++ d.metadata.source_document.getD "Unknown"
        ++ "):\n" ++ d.content) :: specRenderFrom (i + 1) ds

/-- The context body: the renderings "separated by blank lines; if no
passages are supplied, the literal string `"No relevant context found."`
is substituted". -/
def specContextBody (passages : List RetrievedDoc) : String :=
  match passages with
  | [] => "No relevant context found."
  | _ => String.intercalate "\n\n" (specRenderFrom 1 passages)

/-- The RAG-mode prompt in the spec's fixed order: one system message;
"up to the last 5 history turns, each expanded into a user message
followed by an assistant message, oldest first"; then "a single user
message of the form `"Context:\n{joined passages}\n\nQuestion:
{question}"`". -/
def specRagMessages (question : String) (passages : List RetrievedDoc)
    (history : List Turn) : List Message :=
  { role := "system", content := systemPromptRag : Message } ::
    ((history.drop (history.length - 5)).flatMap fun t =>
      [{ role := "user", content := t.user : Message },
       { role := "assistant", content := t.assistant }]) ++
    [{ role := "user",
       content := "Context:\n" ++ specContextBody passages ++ "\n\nQuestion: " ++ question }]

/-! ## Concrete fixtures used by witnesses and counterexamples -/

/-- Five turns of a demo conversation. -/
def demoLog : List Turn :=
  [{ timestamp := "t1", user := "u1", assistant := "a1" },
   { timestamp := "t2", user := "u2", assistant := "a2" },
   { timestamp := "t3", user := "u3", assistant := "a3" },
   { timestamp := "t4", user := "u4", assistant := "a4" },
   { timestamp := "t5", user := "u5", assistant := "a5" }]

/-- A store holding the demo conversation under id `"c"`. -/
def demoMem : Conversations := [("c", demoLog)]

/-- A demo model configuration. -/
def demoCfg : LLMConfig := { model := "m1", fallback_model := "m2" }

/-- A backend whose every completion succeeds with `"hi"`. -/
def stubOkBackend : ChatBackend := { complete := fun _ _ => .ok "hi" }

/-- A backend whose primary model `"m1"` always fails and whose every
other model answers `"OK"`. -/
def stubFallbackBackend : ChatBackend :=
  { complete := fun model _ => if model = "m1" then .error "boom" else .ok "OK" }

/-- A backend whose every completion fails. -/
def stubBadBackend : ChatBackend := { complete := fun _ _ => .error "down" }

/-- An environment whose similarity search always raises. -/
def envSearchFail : PipelineEnv :=
  { be := stubOkBackend, cfg := demoCfg, search := fun _ _ => .error "index down" }

/-- An environment for the fallback scenario: the search raises and the
primary chat model always fails while the fallback answers `"OK"`. -/
def envFallback : PipelineEnv :=
  { be := stubFallbackBackend, cfg := demoCfg, search := fun _ _ => .error "index down" }

/-- A retrieved chunk whose content is 201 characters long. -/
def longDoc : RetrievedDoc :=
  { id := "doc.txt_chunk_0"
    content := ⟨List.replicate 201 'a'⟩
    metadata :=
      { source_document := some "doc.txt", source_path := some "/d/doc.txt"
        chunk_index := some 0, chunk_size := some 201 }
    distance := none }

/-- An environment whose search returns the single long chunk. -/
def envLongDoc : PipelineEnv :=
  { be := stubOkBackend, cfg := demoCfg, search := fun _ _ => .ok [longDoc] }

/-- A document whose raw content is empty. -/
def emptyContentDoc : Document :=
  { file_path := "/d/empty.txt", file_name := "empty.txt", content := "" }

/-- The three-sentence demo document of the spec's ingestion scenario. -/
def demoTextDoc : Document :=
  { file_path := "/d/abc.txt", file_name := "abc.txt", content := "A. B. C." }

/-- A five-character document for exercising the splitter with
`chunk_size = 3`, `chunk_overlap = 1`. -/
def tinyDoc : Document :=
  { file_path := "/d/tiny.txt", file_name := "tiny.txt", content := "abcde" }

/-- A one-file file system for the ingestion witness. -/
def demoFs : FileSystem := [("a.txt", "hello")]

/-! ## Claim vocabulary -/

/-- Chunk contents `a` and `b` share the configured overlap at their
boundary: the last `ov` characters of `a` are exactly the first `ov`
characters of `b`, and there really are `ov` of them. -/
def sharesOverlap (ov : Nat) (a b : String) : Prop :=
  a.data.drop (a.data.length - ov) = b.data.take ov ∧ (b.data.take ov).length = ov

/-- The last chunk of a list carrying a given id, if any (the entry an
id-keyed upsert sequence leaves in the store). -/
def findLastChunk (chunks : List Chunk) (k : String) : Option Chunk :=
  match chunks with
  | [] => none
  | c :: cs =>
    match findLastChunk cs k with
    | some d => some d
    | none => if c.chunk_id = k then some c else none

/-! # Theorems -/

/-! ## Helper lemmas about the packer -/

theorem mem_packChunksAux_length_le (chunkSize step : Nat) :
    ∀ (fuel : Nat) (cs : List Char), ∀ c ∈ packChunksAux chunkSize step fuel cs,
      c.length ≤ chunkSize := by
  intro fuel
  induction fuel with
  | zero =>
    intro cs c hc
    cases cs <;> simp [packChunksAux] at hc
  | succ n ih =>
    intro cs c hc
    cases cs with
    | nil => simp [packChunksAux] at hc
    | cons a rest =>
      simp only [packChunksAux] at hc
      split at hc
      · rename_i hle
        rw [List.mem_singleton] at hc
        subst hc
        exact hle
      · rcases List.mem_cons.mp hc with rfl | hmem
        · simp [List.length_take]
        · exact ih _ c hmem

theorem packChunksAux_head (chunkSize step ov : Nat) (hov : ov ≤ chunkSize) :
    ∀ (fuel : Nat) (cs : List Char), cs ≠ [] → cs.length ≤ fuel →
      ∃ b t, packChunksAux chunkSize step fuel cs = b :: t ∧
        b.take ov = cs.take ov ∧ min cs.length chunkSize ≤ b.length := by
  intro fuel cs hne hfl
  cases cs with
  | nil => exact absurd rfl hne
  | cons a rest =>
    cases fuel with
    | zero => simp at hfl
    | succ n =>
      simp only [packChunksAux]
      split
      · exact ⟨a :: rest, [], rfl, rfl, min_le_left _ _⟩
      · refine ⟨(a :: rest).take chunkSize, _, rfl, ?_, ?_⟩
        · rw [List.take_take, min_eq_left hov]
        · rw [List.length_take, min_comm]

theorem packChunksAux_overlap (chunkSize ov : Nat) (hov : ov < chunkSize) :
    ∀ (fuel : Nat) (cs : List Char), cs.length ≤ fuel →
      ∀ pr ∈ (packChunksAux chunkSize (chunkSize - ov) fuel cs).zip
          (packChunksAux chunkSize (chunkSize - ov) fuel cs).tail,
        pr.1.drop (pr.1.length - ov) = pr.2.take ov ∧ (pr.2.take ov).length = ov := by
  intro fuel
  induction fuel with
  | zero =>
    intro cs hfl pr hpr
    have : cs = [] := List.length_eq_zero.mp (Nat.le_zero.mp hfl)
    subst this
    simp [packChunksAux] at hpr
  | succ n ih =>
    intro cs hfl pr hpr
    cases cs with
    | nil => simp [packChunksAux] at hpr
    | cons a rest =>
      simp only [packChunksAux] at hpr
      split at hpr
      · simp at hpr
      · rename_i hgt
        push_neg at hgt
        have hstep : 1 ≤ chunkSize - ov := by omega
        have hlen : (a :: rest).length ≤ n + 1 := hfl
        have hcs2len : ((a :: rest).drop (chunkSize - ov)).length =
            (a :: rest).length - (chunkSize - ov) := List.length_drop _ _
        have hcs2fuel : ((a :: rest).drop (chunkSize - ov)).length ≤ n := by omega
        have hcs2pos : 0 < ((a :: rest).drop (chunkSize - ov)).length := by omega
        obtain ⟨b, t, hbt, hbtake, hblen⟩ :=
          packChunksAux_head chunkSize (chunkSize - ov) ov hov.le n
            ((a :: rest).drop (chunkSize - ov)) (List.ne_nil_of_length_pos hcs2pos) hcs2fuel
        rw [hbt, List.tail_cons, List.zip_cons_cons] at hpr
        rcases List.mem_cons.mp hpr with rfl | hmem
        · constructor
          · have htklen : ((a :: rest).take chunkSize).length = chunkSize := by
              rw [List.length_take]
              omega
            rw [htklen, List.drop_take, hbtake]
            congr 1
            omega
          · rw [hbtake, List.length_take, hcs2len]
            omega
        · have := ih ((a :: rest).drop (chunkSize - ov)) hcs2fuel pr
          rw [hbt, List.tail_cons] at this
          exact this hmem

theorem mem_packChunks_length_le (chunkSize chunkOverlap : Nat) (cs : List Char) :
    ∀ c ∈ packChunks chunkSize chunkOverlap cs, c.length ≤ chunkSize :=
  mem_packChunksAux_length_le chunkSize _ cs.length cs

theorem packChunks_overlap (chunkSize ov : Nat) (hov : ov < chunkSize) (cs : List Char) :
    ∀ pr ∈ (packChunks chunkSize ov cs).zip (packChunks chunkSize ov cs).tail,
      pr.1.drop (pr.1.length - ov) = pr.2.take ov ∧ (pr.2.take ov).length = ov := by
  have hmax : max 1 (chunkSize - ov) = chunkSize - ov := max_eq_right (by omega)
  intro pr hpr
  apply packChunksAux_overlap chunkSize ov hov cs.length cs le_rfl
  rw [← hmax]
  exact hpr

theorem chunkDocument_map_content (chunkSize chunkOverlap : Nat) (doc : Document) :
    (chunkDocument chunkSize chunkOverlap doc).map Chunk.content =
      splitText chunkSize chunkOverlap (cleanText doc.content) := by
  show ((splitText chunkSize chunkOverlap (cleanText doc.content)).enum.map _).map _ = _
  rw [List.map_map]
  exact List.enum_map_snd _

/-! ## C5: chunk sizes and chunk overlap -/

/-- C5: for every document whose cleaned text is longer than
`chunk_size` (with the configured `chunk_overlap < chunk_size`), every
chunk produced by the splitter has content length at most `chunk_size`
— with no oversized chunk at all, since the character-granularity
splitter never meets an indivisible unit above the limit — and each
pair of consecutive chunks shares the configured `chunk_overlap`
characters at the boundary. -/
theorem chunk_length_and_overlap (chunkSize chunkOverlap : Nat) (doc : Document)
    (hov : chunkOverlap < chunkSize)
    (_hL : chunkSize < (cleanText doc.content).length) :
    (∀ ch ∈ chunkDocument chunkSize chunkOverlap doc, ch.content.length ≤ chunkSize) ∧
    (∀ pr ∈ (chunkDocument chunkSize chunkOverlap doc).zip
        (chunkDocument chunkSize chunkOverlap doc).tail,
      sharesOverlap chunkOverlap pr.1.content pr.2.content) := by
  constructor
  · intro ch hch
    have hmem : ch.content ∈ (chunkDocument chunkSize chunkOverlap doc).map Chunk.content :=
      List.mem_map_of_mem _ hch
    rw [chunkDocument_map_content] at hmem
    obtain ⟨l, hl, hleq⟩ := List.mem_map.mp hmem
    have := mem_packChunks_length_le chunkSize chunkOverlap _ l hl
    rw [← hleq]
    exact this
  · intro pr hpr
    have hmem : (pr.1.content, pr.2.content) ∈
        ((chunkDocument chunkSize chunkOverlap doc).map Chunk.content).zip
          (((chunkDocument chunkSize chunkOverlap doc).map Chunk.content).tail) := by
      rw [← List.map_tail, List.zip_map]
      exact List.mem_map_of_mem _ hpr
    rw [chunkDocument_map_content] at hmem
    unfold splitText at hmem
    rw [← List.map_tail, List.zip_map] at hmem
    obtain ⟨⟨l1, l2⟩, hl, hleq⟩ := List.mem_map.mp hmem
    have hshare := packChunks_overlap chunkSize chunkOverlap hov
      (cleanText doc.content).data (l1, l2) hl
    have h1 : pr.1.content = ⟨l1⟩ := congrArg Prod.fst hleq.symm
    have h2 : pr.2.content = ⟨l2⟩ := congrArg Prod.snd hleq.symm
    rw [sharesOverlap, h1, h2]
    exact hshare

/-- Witness for `chunk_length_and_overlap` at `chunk_size = 3`,
`chunk_overlap = 1` on the five-character document `"abcde"` (chunks
`"abc"` and `"cde"`, sharing `"c"`). -/
theorem chunk_length_and_overlap_witness :
    (∀ ch ∈ chunkDocument 3 1 tinyDoc, ch.content.length ≤ 3) ∧
    (∀ pr ∈ (chunkDocument 3 1 tinyDoc).zip (chunkDocument 3 1 tinyDoc).tail,
      sharesOverlap 1 pr.1.content pr.2.content) :=
  chunk_length_and_overlap 3 1 tinyDoc (by decide) (by decide)

/-! ## C6: short documents give exactly one chunk -/

/-- C6 (amended): for every document whose cleaned text is non-empty and
at most `chunk_size` long, chunking yields exactly one chunk, with index
0, whose content is the cleaned text (cleaning being the deterministic
collapse/allow-list/strip pipeline embodied by `cleanText`). -/
theorem single_chunk_when_short (chunkSize chunkOverlap : Nat) (doc : Document)
    (hne : cleanText doc.content ≠ "")
    (hle : (cleanText doc.content).length ≤ chunkSize) :
    chunkDocument chunkSize chunkOverlap doc =
      [{ chunk_id := doc.file_name ++ "_chunk_" ++ toString 0
         source_document := doc.file_name
         source_path := doc.file_path
         chunk_index := 0
         content := cleanText doc.content
         chunk_size := (cleanText doc.content).length }] := by
  have hdata : cleanText doc.content ≠ ⟨[]⟩ := hne
  have hsplit : splitText chunkSize chunkOverlap (cleanText doc.content) =
      [cleanText doc.content] := by
    unfold splitText packChunks
    cases hd : (cleanText doc.content).data with
    | nil => exact absurd (String.ext (by simpa using hd)) hdata
    | cons a rest =>
      have hlen1 : (cleanText doc.content).length = rest.length + 1 := by
        rw [String.length, hd]
        rfl
      simp only [List.length_cons, packChunksAux]
      rw [if_pos (by omega : rest.length + 1 ≤ chunkSize)]
      show [(⟨a :: rest⟩ : String)] = _
      rw [← hd]
  show ((splitText chunkSize chunkOverlap (cleanText doc.content)).enum.map _) = _
  rw [hsplit]
  rfl

/-- Counterexample to C6 as stated: the document with empty raw content
has cleaned text of length `0 ≤ chunk_size`, yet chunking yields zero
chunks, not one. -/
theorem single_chunk_refuted_on_empty :
    (cleanText emptyContentDoc.content).length ≤ 1000 ∧
    chunkDocument 1000 200 emptyContentDoc = [] := by
  exact ⟨by decide, rfl⟩

/-- Witness for `single_chunk_when_short` on the spec's three-sentence
scenario document `"A. B. C."` with the default configuration. -/
theorem single_chunk_when_short_witness :
    chunkDocument 1000 200 demoTextDoc =
      [{ chunk_id := demoTextDoc.file_name ++ "_chunk_" ++ toString 0
         source_document := demoTextDoc.file_name
         source_path := demoTextDoc.file_path
         chunk_index := 0
         content := cleanText demoTextDoc.content
         chunk_size := (cleanText demoTextDoc.content).length }] :=
  single_chunk_when_short 1000 200 demoTextDoc (by decide) (by decide)

/-! ## C2: the exact RAG-mode prompt -/

theorem enumFrom_render_eq_specRenderFrom (i : Nat) (ds : List RetrievedDoc) :
    (List.enumFrom i ds).map (fun p =>
        "Source " ++ toString p.1 ++ " (" ++ p.2.metadata.source_document.getD "Unknown"
          ++ "):\n" ++ p.2.content) = specRenderFrom i ds := by
  induction ds generalizing i with
  | nil => rfl
  | cons d ds ih => simp [List.enumFrom, specRenderFrom, ih]

theorem buildContext_eq_specContextBody (passages : List RetrievedDoc) :
    buildContext passages = specContextBody passages := by
  cases passages with
  | nil => rfl
  | cons d ds =>
    simp only [buildContext, specContextBody, List.isEmpty_cons, Bool.false_eq_true,
      if_false, enumFrom_render_eq_specRenderFrom]

/-- C2: for every question, passage list and history, the RAG-mode
prompt built by `generate_response` (that is,
`buildMessages question (buildContext passages) history`) is exactly the
sequence the spec prescribes: one system message, then user/assistant
pairs for at most the last five history turns oldest first, then the
single `Context:`/`Question:` user message whose context body joins the
1-based `Source i (name):\ncontent` renderings with blank lines and
degrades to `"No relevant context found."` on an empty passage list. -/
theorem rag_prompt_exact (question : String) (passages : List RetrievedDoc)
    (history : List Turn) :
    buildMessages question (buildContext passages) (some history) =
      specRagMessages question passages history ∧
    buildMessages question (buildContext passages) none =
      specRagMessages question passages [] := by
  constructor
  · unfold buildMessages specRagMessages
    rw [buildContext_eq_specContextBody]
    cases history with
    | nil => rfl
    | cons t ts =>
      simp only [List.isEmpty_cons, Bool.false_eq_true, if_false, List.cons_append,
        List.nil_append]
  · unfold buildMessages specRagMessages
    rw [buildContext_eq_specContextBody]
    rfl

/-! ## C4: re-ingesting the identical document is idempotent -/

theorem addDocuments_apply (m : IndexState) (chunks : List Chunk) (k : String) :
    addDocuments m chunks k =
      match findLastChunk chunks k with
      | some c => some (entryOf c)
      | none => m k := by
  induction chunks generalizing m with
  | nil => rfl
  | cons c cs ih =>
    show addDocuments (upsertEntry m c.chunk_id (entryOf c)) cs k = _
    rw [ih]
    cases hf : findLastChunk cs k with
    | some d => simp [findLastChunk, hf]
    | none =>
      simp only [findLastChunk, hf, upsertEntry]
      by_cases hc : c.chunk_id = k
      · rw [if_pos hc, if_pos hc.symm]
      · rw [if_neg hc, if_neg (fun h => hc h.symm)]

theorem addDocuments_idem (m : IndexState) (chunks : List Chunk) :
    addDocuments (addDocuments m chunks) chunks = addDocuments m chunks := by
  funext k
  cases hf : findLastChunk chunks k with
  | some c => simp [addDocuments_apply, hf]
  | none => simp [addDocuments_apply, hf]

/-- C4: chunk ids are the deterministic
`"{source_document}_chunk_{chunk_index}"` strings, so re-ingesting the
identical document reproduces the identical ids, and replaying the same
id-keyed upserts leaves the embedding index state exactly as after the
first ingest. -/
theorem ingest_twice_idempotent (chunkSize chunkOverlap : Nat) (doc : Document)
    (m : IndexState) :
    ((chunkDocument chunkSize chunkOverlap doc).map Chunk.chunk_id =
      (chunkDocument chunkSize chunkOverlap doc).map fun c =>
        doc.file_name ++ "_chunk_" ++ toString c.chunk_index) ∧
    addDocuments (addDocuments m (chunkDocument chunkSize chunkOverlap doc))
        (chunkDocument chunkSize chunkOverlap doc) =
      addDocuments m (chunkDocument chunkSize chunkOverlap doc) := by
  refine ⟨?_, addDocuments_idem m _⟩
  unfold chunkDocument
  rw [List.map_map, List.map_map]
  rfl

/-! ## C7: history returns a bounded suffix -/

/-- C7: `get_conversation_history` returns the empty list for an
unknown conversation id, the full log when `max_turns` is absent, and,
for a positive `max_turns`, the contiguous suffix of the most recent
`max_turns` turns in original order (all of them when the log is
shorter, exactly `max_turns` of them otherwise). -/
theorem history_returns_suffix (m : Conversations) (cid : String) :
    (lookupConv m cid = none → ∀ maxTurns, getConversationHistory m cid maxTurns = []) ∧
    (∀ log, lookupConv m cid = some log →
      getConversationHistory m cid none = log ∧
      (∀ n : Nat, 0 < n →
        getConversationHistory m cid (some n) = log.drop (log.length - n) ∧
        List.IsSuffix (getConversationHistory m cid (some n)) log ∧
        (n ≤ log.length → (getConversationHistory m cid (some n)).length = n))) := by
  constructor
  · intro hnone maxTurns
    unfold getConversationHistory
    rw [hnone]
  · intro log hsome
    refine ⟨?_, ?_⟩
    · unfold getConversationHistory
      rw [hsome]
    · intro n hn
      obtain ⟨n', rfl⟩ : ∃ n', n = n' + 1 := ⟨n - 1, by omega⟩
      have heq : getConversationHistory m cid (some (n' + 1)) =
          log.drop (log.length - (n' + 1)) := by
        unfold getConversationHistory
        rw [hsome]
      refine ⟨heq, ?_, ?_⟩
      · rw [heq]
        exact List.drop_suffix _ _
      · intro hle
        rw [heq, List.length_drop]
        omega

/-- Witness for `history_returns_suffix`: on the five-turn demo
conversation, `max_turns = 2` returns exactly the last two turns. -/
theorem history_returns_suffix_witness :
    getConversationHistory demoMem "c" (some 2) = demoLog.drop (demoLog.length - 2) ∧
    (getConversationHistory demoMem "c" (some 2)).length = 2 :=
  ⟨(((history_returns_suffix demoMem "c").2 demoLog rfl).2 2 (by decide)).1,
   (((history_returns_suffix demoMem "c").2 demoLog rfl).2 2 (by decide)).2.2 (by decide)⟩

/-! ## C10: `max_turns = 0` behaves as unbounded -/

/-- C10: because the cap is applied only when `max_turns` is
Python-truthy, `get_conversation_history` with `max_turns = 0` returns
the full turn log — in particular a non-empty one for any conversation
with at least one appended turn — rather than the empty list. -/
theorem history_zero_is_unbounded (m : Conversations) (cid : String) (log : List Turn)
    (h : lookupConv m cid = some log) :
    getConversationHistory m cid (some 0) = log ∧
    (log ≠ [] → getConversationHistory m cid (some 0) ≠ []) := by
  have heq : getConversationHistory m cid (some 0) = log := by
    unfold getConversationHistory
    rw [h]
  exact ⟨heq, fun hne => heq ▸ hne⟩

/-- Witness for `history_zero_is_unbounded` on the five-turn demo
conversation. -/
theorem history_zero_is_unbounded_witness :
    getConversationHistory demoMem "c" (some 0) = demoLog ∧
    getConversationHistory demoMem "c" (some 0) ≠ [] :=
  ⟨(history_zero_is_unbounded demoMem "c" demoLog rfl).1,
   (history_zero_is_unbounded demoMem "c" demoLog rfl).2 (by decide)⟩

/-! ## C1: retrieval failures are swallowed -/

/-- C1: when the similarity search raises (broken or never-initialized
index) or returns nothing (empty knowledge base), `ask_question` does
not raise on that account: the failure is treated as zero retrieved
passages, the answer is produced by the general-chat generator, and the
returned dictionary carries `sources = []`. -/
theorem ask_survives_retrieval_failure (env : PipelineEnv) (mem : Conversations)
    (question : String) (cid : Option String) (topK : Nat) (ts : String) (ans : String)
    (hs : (∃ e, env.search question topK = .error e) ∨ env.search question topK = .ok [])
    (hg : generateGeneralResponse env.be env.cfg question (historyArg mem cid) = .ok ans) :
    ∃ mem2, askQuestion env mem question cid topK ts =
      .ok ({ answer := ans, sources := [], conversation_id := cid }, mem2) := by
  have hret : retrievedOrEmpty env question topK = [] := by
    unfold retrievedOrEmpty
    rcases hs with ⟨e, he⟩ | hok
    · rw [he]
    · rw [hok]
  unfold askQuestion
  rw [hret]
  simp only [List.isEmpty_nil, if_true, hg, List.map_nil]
  exact ⟨_, rfl⟩

/-- Witness for `ask_survives_retrieval_failure`: a pipeline whose
search always raises still answers with empty sources. -/
theorem ask_survives_retrieval_failure_witness :
    ∃ mem2, askQuestion envSearchFail [] "q" none 5 "t" =
      .ok ({ answer := "hi", sources := [], conversation_id := none }, mem2) :=
  ask_survives_retrieval_failure envSearchFail [] "q" none 5 "t" "hi"
    (Or.inl ⟨"index down", rfl⟩) rfl

/-! ## C3: primary failure retries the fallback model exactly once -/

/-- C3: a failing primary completion triggers exactly one retry against
the fallback model, whose success becomes the answer and whose failure
is terminal (`LLMError`, the spec's `GenerationError`); in particular,
with a backend whose primary model always fails while the fallback
answers `"OK"`, `ask_question` returns the answer `"OK"` in both RAG
and general-chat mode and does not raise. -/
theorem fallback_retry_policy (be bad : ChatBackend) (cfg : LLMConfig)
    (query : String) (docs : List RetrievedDoc) (hist : Option (List Turn))
    (search : String → Nat → Except String (List RetrievedDoc))
    (mem : Conversations) (cid : Option String) (topK : Nat) (ts : String) (e e2 e3 : String)
    (hfb : cfg.fallback_model ≠ "")
    (hp : ∀ msgs, be.complete cfg.model msgs = .error e)
    (hf : ∀ msgs, be.complete cfg.fallback_model msgs = .ok "OK")
    (hbp : ∀ msgs, bad.complete cfg.model msgs = .error e3)
    (hbf : ∀ msgs, bad.complete cfg.fallback_model msgs = .error e2) :
    generateResponse be cfg query docs hist false = .ok "OK" ∧
    generateGeneralResponse be cfg query hist = .ok "OK" ∧
    generateResponse bad cfg query docs hist false =
      .error ("Failed to generate response: " ++ e2) ∧
    generateGeneralResponse bad cfg query hist =
      .error ("Failed to generate response: " ++ e2) ∧
    (∃ resp mem2,
      askQuestion { be := be, cfg := cfg, search := search } mem query cid topK ts =
        .ok (resp, mem2) ∧ resp.answer = "OK") := by
  have hifm : ∀ a b : String, (if (false : Bool) = true then a else b) = b := fun _ _ => rfl
  have hgen : ∀ (docs2 : List RetrievedDoc) (hist2 : Option (List Turn)),
      generateResponse be cfg query docs2 hist2 false = .ok "OK" := by
    intro docs2 hist2
    unfold generateResponse generateResponseGo
    rw [hifm, hp, hf]
    rfl
  have hgeneral : ∀ hist2, generateGeneralResponse be cfg query hist2 = .ok "OK" := by
    intro hist2
    simp only [generateGeneralResponse]
    rw [hp]
    show (if cfg.fallback_model ≠ "" then
        match be.complete cfg.fallback_model (buildGeneralMessages query hist2) with
        | Except.ok answer => Except.ok (pyStrip answer)
        | Except.error e2 => Except.error ("Failed to generate response: " ++ e2)
      else Except.error ("Failed to generate response: " ++ e)) = Except.ok "OK"
    rw [if_pos hfb, hf]
    rfl
  have hterm : ∀ (docs2 : List RetrievedDoc) (hist2 : Option (List Turn)),
      generateResponse bad cfg query docs2 hist2 false =
        .error ("Failed to generate response: " ++ e2) := by
    intro docs2 hist2
    unfold generateResponse generateResponseGo
    rw [hifm, hbp, hbf]
    rfl
  have htermGeneral : ∀ hist2, generateGeneralResponse bad cfg query hist2 =
      .error ("Failed to generate response: " ++ e2) := by
    intro hist2
    simp only [generateGeneralResponse]
    rw [hbp]
    show (if cfg.fallback_model ≠ "" then
        match bad.complete cfg.fallback_model (buildGeneralMessages query hist2) with
        | Except.ok answer => Except.ok (pyStrip answer)
        | Except.error e2 => Except.error ("Failed to generate response: " ++ e2)
      else Except.error ("Failed to generate response: " ++ e3)) =
      Except.error ("Failed to generate response: " ++ e2)
    rw [if_pos hfb, hbf]
  refine ⟨hgen docs hist, hgeneral hist, hterm docs hist, htermGeneral hist, ?_⟩
  simp only [askQuestion]
  by_cases hret :
      (retrievedOrEmpty { be := be, cfg := cfg, search := search } query topK).isEmpty
  · rw [if_pos hret, hgeneral]
    exact ⟨_, _, rfl, rfl⟩
  · rw [if_neg hret, hgen]
    exact ⟨_, _, rfl, rfl⟩

/-- Witness for `fallback_retry_policy` with the concrete stub backends
(`"m1"` always failing, everything else answering `"OK"`; the bad
backend failing on both models). -/
theorem fallback_retry_policy_witness :
    generateResponse stubFallbackBackend demoCfg "q" [] none false = .ok "OK" ∧
    generateGeneralResponse stubFallbackBackend demoCfg "q" none = .ok "OK" ∧
    generateResponse stubBadBackend demoCfg "q" [] none false =
      .error ("Failed to generate response: " ++ "down") ∧
    generateGeneralResponse stubBadBackend demoCfg "q" none =
      .error ("Failed to generate response: " ++ "down") ∧
    (∃ resp mem2,
      askQuestion { be := stubFallbackBackend, cfg := demoCfg,
                    search := fun _ _ => .error "index down" } [] "q" none 5 "t" =
        .ok (resp, mem2) ∧ resp.answer = "OK") :=
  fallback_retry_policy stubFallbackBackend stubBadBackend demoCfg "q" [] none
    (fun _ _ => .error "index down") [] none 5 "t" "boom" "down" "down"
    (by decide) (fun _ => rfl) (fun _ => rfl) (fun _ => rfl) (fun _ => rfl)

/-! ## C8: the shape of the returned sources -/

/-- C8 (amended): every element of the `sources` list returned by
`ask_question` carries the source document name and a preview that is
the retrieved chunk's full content when that content is at most 200
characters, and its first 200 characters followed by `"..."` — 203
characters in total — otherwise; every preview is therefore at most 203
(not 200) characters long. -/
theorem sources_preview_shape (env : PipelineEnv) (mem : Conversations) (question : String)
    (cid : Option String) (topK : Nat) (ts : String) (resp : AskResponse)
    (mem2 : Conversations)
    (h : askQuestion env mem question cid topK ts = .ok (resp, mem2)) :
    ∀ s ∈ resp.sources, s.content_preview.length ≤ 203 ∧
      ∃ d ∈ retrievedOrEmpty env question topK,
        s.source = d.metadata.source_document.getD "Unknown" ∧
        s.content_preview = contentPreview d.content ∧
        (d.content.length ≤ 200 → s.content_preview = d.content) ∧
        (200 < d.content.length →
          s.content_preview = (⟨d.content.data.take 200⟩ : String) ++ "..." ∧
          s.content_preview.length = 203) := by
  have hsources : resp.sources = (retrievedOrEmpty env question topK).map fun d =>
      { source := d.metadata.source_document.getD "Unknown"
        content_preview := contentPreview d.content : SourceInfo } := by
    simp only [askQuestion] at h
    cases hans : (if (retrievedOrEmpty env question topK).isEmpty then
        generateGeneralResponse env.be env.cfg question (historyArg mem cid)
      else
        generateResponse env.be env.cfg question (retrievedOrEmpty env question topK)
          (historyArg mem cid) false) with
    | error eans =>
      rw [hans] at h
      exact absurd h (by simp)
    | ok ans =>
      rw [hans] at h
      simp only [Except.ok.injEq, Prod.mk.injEq] at h
      rw [← h.1]
  rw [hsources]
  intro s hs
  obtain ⟨d, hd, hds⟩ := List.mem_map.mp hs
  have hdots : ("..." : String).length = 3 := rfl
  have hpl : (contentPreview d.content).length ≤ 203 := by
    unfold contentPreview
    split
    · rename_i hgt
      rw [String.length_append]
      have h200 : ((⟨d.content.data.take 200⟩ : String)).length = 200 := by
        rw [String.length, List.length_take]
        change (200 : Nat) ⊓ d.content.data.length = 200
        have : d.content.length = d.content.data.length := rfl
        omega
      omega
    · omega
  refine ⟨?_, d, hd, ?_, ?_, ?_, ?_⟩
  · rw [← hds]
    exact hpl
  · rw [← hds]
  · rw [← hds]
  · intro hle
    rw [← hds]
    show contentPreview d.content = d.content
    unfold contentPreview
    rw [if_neg (by omega)]
  · intro hgt
    have hshape : contentPreview d.content = (⟨d.content.data.take 200⟩ : String) ++ "..." := by
      unfold contentPreview
      rw [if_pos hgt]
    constructor
    · rw [← hds]
      exact hshape
    · rw [← hds, hshape, String.length_append]
      have h200 : ((⟨d.content.data.take 200⟩ : String)).length = 200 := by
        rw [String.length, List.length_take]
        change (200 : Nat) ⊓ d.content.data.length = 200
        have : d.content.length = d.content.data.length := rfl
        omega
      omega

set_option maxRecDepth 16384 in
/-- Counterexample to C8 as stated: a retrieved chunk of 201 characters
yields a preview of 203 characters, which exceeds the claimed bound of
200. -/
theorem sources_preview_refuted :
    askQuestion envLongDoc [] "q" none 5 "t" =
      .ok ({ answer := "hi",
             sources := [{ source := "doc.txt",
                           content_preview := (⟨List.replicate 200 'a'⟩ : String) ++ "..." }],
             conversation_id := none }, []) ∧
    200 < ((⟨List.replicate 200 'a'⟩ : String) ++ "...").length := by
  exact ⟨by rfl, by decide⟩

set_option maxRecDepth 16384 in
/-- Witness for `sources_preview_shape` on the 201-character retrieved
chunk: its preview, as returned by `ask_question`, is at most 203
characters. -/
theorem sources_preview_shape_witness :
    ({ source := "doc.txt",
       content_preview := (⟨List.replicate 200 'a'⟩ : String) ++ "..." } :
      SourceInfo).content_preview.length ≤ 203 :=
  ((sources_preview_shape envLongDoc [] "q" none 5 "t"
      { answer := "hi"
        sources := [{ source := "doc.txt",
                      content_preview := (⟨List.replicate 200 'a'⟩ : String) ++ "..." }]
        conversation_id := none } [] (by rfl))
    { source := "doc.txt", content_preview := (⟨List.replicate 200 'a'⟩ : String) ++ "..." }
    (List.mem_cons_self _ _)).1

/-! ## C9: a failed batch ingest leaves the index unchanged -/

theorem readDocuments_error_of_mem (fs : FileSystem) :
    ∀ (paths : List String) (p e : String), p ∈ paths →
      ingestDocument fs p = .error e → ∃ e2, readDocuments fs paths = .error e2 := by
  intro paths
  induction paths with
  | nil =>
    intro p e hp
    exact absurd hp (List.not_mem_nil p)
  | cons q qs ih =>
    intro p e hp he
    rcases List.mem_cons.mp hp with rfl | hmem
    · exact ⟨e, by simp [readDocuments, he]⟩
    · cases hq : ingestDocument fs q with
      | error e3 => exact ⟨e3, by simp [readDocuments, hq]⟩
      | ok d =>
        obtain ⟨e2, h2⟩ := ih p e hmem he
        exact ⟨e2, by simp [readDocuments, hq, h2]⟩

/-- C9: when any file of the batch fails to ingest (missing path or
unsupported extension), `ingest_documents` raises and the embedding
index is left exactly as it was: every file is read before the single
index write, so the failing call commits no chunks at all. -/
theorem ingest_leaves_index_unchanged_on_error (fs : FileSystem)
    (chunkSize chunkOverlap : Nat) (idx : IndexState) (paths : List String) (p e : String)
    (hp : p ∈ paths) (he : ingestDocument fs p = .error e) :
    (ingestDocuments fs chunkSize chunkOverlap idx paths).1 = idx ∧
    ∃ msg, (ingestDocuments fs chunkSize chunkOverlap idx paths).2 = .error msg := by
  obtain ⟨e2, h2⟩ := readDocuments_error_of_mem fs paths p e hp he
  unfold ingestDocuments
  rw [h2]
  exact ⟨rfl, "Document ingestion failed: " ++ e2, rfl⟩

/-- Witness for `ingest_leaves_index_unchanged_on_error`: a batch whose
second file is missing commits nothing, even though its first file is
readable. -/
theorem ingest_leaves_index_unchanged_witness :
    (ingestDocuments demoFs 1000 200 emptyIndex ["a.txt", "missing.txt"]).1 = emptyIndex ∧
    ∃ msg, (ingestDocuments demoFs 1000 200 emptyIndex ["a.txt", "missing.txt"]).2 =
      .error msg :=
  ingest_leaves_index_unchanged_on_error demoFs 1000 200 emptyIndex
    ["a.txt", "missing.txt"] "missing.txt"
    ("Failed to ingest document: File not found: " ++ "missing.txt") (by decide) rfl

end RAGChatbot
